import Mathlib

/-!
Verification of the promise-based object-store wrapper (`indexeddb-promise`).

The development shallowly embeds the wrapper's data model and operations
(`src/Database.ts`, `src/Model.ts`) as executable Lean functions:

* JavaScript record values are modelled by `JSVal` (numbers, strings, booleans);
  a record is an ordered association list of field/value pairs.  The absence of
  a field plays the role of JavaScript's `undefined`.
* Object-store state (in-line keys via a key path, a key generator for
  auto-increment stores, uniqueness of primary keys) models the host engine's
  store, which the spec treats as an external collaborator.
* Promise settlement is modelled by `Settle`: an operation either resolves,
  rejects, or never settles (when an exception thrown inside an event or
  `then` callback prevents `resolve`/`reject` from running).
-/

/-- JavaScript primitive values that appear in records handled by the wrapper
(numbers as integers, strings, booleans).  Strict equality `===` is
structural equality on this type. -/
inductive JSVal where
  | num (n : Int)
  | str (s : String)
  | bool (b : Bool)
deriving DecidableEq, Repr

/-- A record is a plain object: an ordered list of field/value pairs.
A field that is absent models JavaScript `undefined`. -/
abbrev Rec := List (String × JSVal)

/-- Field access `record[k]`: the value of the first pair with key `k`,
`none` when the field is absent (JavaScript `undefined`). -/
def lookupField (r : Rec) (k : String) : Option JSVal :=
  match r with
  | [] => none
  | (k', v) :: rest => if k' = k then some v else lookupField rest k

/-- Membership test `Object.keys(record).includes(k)`. -/
def hasKey (r : Rec) (k : String) : Bool :=
  (r.map Prod.fst).contains k

/-- Object spread `\x7b...a, ...b\x7d`: the fields of `a` in order, with values
overridden by `b` where `b` also has the key, followed by the fields of `b`
that are new.  `Object.assign(a, b)` produces the same field/value content. -/
def mergeRecs (a b : Rec) : Rec :=
  a.map (fun kv => (kv.1, (lookupField b kv.1).getD kv.2)) ++
    b.filter (fun kv => !hasKey a kv.1)

/-- Property assignment `r[k] = v`. -/
def setField (r : Rec) (k : String) (v : JSVal) : Rec :=
  mergeRecs r [(k, v)]

/-! ## Table configuration (src/types.ts shape, as used by Database.ts/Model.ts) -/

/-- Primary-key configuration of a table (`TableType.primaryKey`). -/
structure PrimaryKeyCfg where
  name : String
  autoIncrement : Bool
  unique : Bool
deriving DecidableEq, Repr

/-- Secondary-index configuration (`TableType.indexes[field]`). -/
structure IndexCfg where
  unique : Bool := false
  multiEntry : Bool := false
deriving DecidableEq, Repr

/-- Table configuration (`TableType`).  `primaryKey = none` models an absent
`primaryKey` member, accessed in the source through optional chaining. -/
structure TableType where
  name : String
  timestamps : Bool := false
  primaryKey : Option PrimaryKeyCfg := none
  indexes : List (String × IndexCfg) := []
  initData : List Rec := []
deriving DecidableEq, Repr

/-- Database configuration (`ConfigType`) after normalization/validation. -/
structure ConfigType where
  name : String
  version : Int
  tables : List TableType
deriving DecidableEq, Repr

/-- JavaScript `x || dflt` on an optionally-present boolean: a truthy value
(`some true`) is kept, `false` and `undefined` both fall through to the
default. -/
def jsOrBool (x : Option Bool) (dflt : Bool) : Bool :=
  match x with
  | some true => true
  | _ => dflt

/-- JavaScript `x || dflt` on an optionally-present string: a truthy
(non-empty, defined) value is kept, otherwise the default. -/
def jsOrString (x : Option String) (dflt : String) : String :=
  match x with
  | some s => if s = "" then dflt else s
  | none => dflt

/-- Per-table primary-key violation test used by `Database.verify`:
`table.primaryKey?.autoIncrement === false` and the record's keys do not
include `table.primaryKey?.name`. -/
def pkViolated (data : Rec) (table : TableType) : Bool :=
  match table.primaryKey with
  | some pk => !pk.autoIncrement && !hasKey data pk.name
  | none => false

/-- Embedding of `Database.verify` (src/Database.ts): throws when `tables` is
empty, iterates over ALL tables and throws at the first whose primary key is
non-auto-increment while the record lacks that key; otherwise returns the
record unchanged.  Thrown errors are modelled as `Except.error`. -/
def Database.verify (data : Rec) (tables : List TableType) : Except String Rec :=
  match tables with
  | [] => .error "Tables should not be empty/undefined"
  | _ :: _ =>
    if tables.any (fun table => pkViolated data table) then
      .error "Either include primary key as well or set autoincrement true."
    else
      .ok data

/-! ## Class metadata (Decorators collaborator) -/

/-- Modelled from the spec: class-level and per-property metadata extracted by
the decorator collaborator (`src/Decorators.ts` is not in the source tree).
Per spec section 6, class metadata carries name/timestamps/initial data and a
property can be annotated as the primary key; `primaryKeyProp` is that
property's name, if any. -/
structure ClassInfo where
  name : String
  timestamps : Bool := false
  initialData : List Rec := []
  primaryKeyProp : Option String := none
deriving DecidableEq, Repr

/-- Modelled from the spec: `getPrimaryKey` of the decorator collaborator
(`src/Decorators.ts` is not in the source tree).  It returns the name of the
property annotated as primary key and throws when the class is `null` (a
Model built from a plain table name) or no property is annotated; `Model`
catches that throw and leaves `primary.key` as `null`. -/
def getPrimaryKey (cls : Option ClassInfo) : Except String String :=
  match cls with
  | none => .error "No class metadata"
  | some c =>
    match c.primaryKeyProp with
    | some p => .ok p
    | none => .error "No primary key found"

/-- Embedding of `Model.resolveValue`: when the Model carries an annotated
class, the record is instantiated into the class via the out-of-scope
`class-transformer` collaborator (spec section 1), which preserves the
record's field/value content; at the record level it is the identity. -/
def resolveValue (cls : Option ClassInfo) (value : Rec) : Rec :=
  match cls with
  | some _ => value
  | none => value

/-! ## Promise settlement and the host object store -/

/-- Outcome of a wrapper operation's promise: resolved, rejected, or never
settled (an exception inside a callback prevented both `resolve` and
`reject` from running). -/
inductive Settle (A : Type) where
  | resolved (value : A)
  | rejected (reason : String)
  | unsettled
deriving DecidableEq, Repr

/-- Whether a promise outcome settled at all. -/
def Settle.isSettled {A : Type} : Settle A → Bool
  | .resolved _ => true
  | .rejected _ => true
  | .unsettled => false

/-- Whether a promise outcome settled with a failure. -/
def Settle.isRejected {A : Type} : Settle A → Bool
  | .rejected _ => true
  | _ => false

/-- Model of one host object store (out-of-scope collaborator, spec section 1):
in-line keys at `keyPath`, a key generator for auto-increment stores, and
primary-key uniqueness. -/
structure ObjectStore where
  name : String := ""
  keyPath : String
  autoIncrement : Bool
  indexNames : List String := []
  keyGen : Int := 1
  records : List Rec := []
deriving DecidableEq, Repr

/-- Host key generator update: an explicit numeric key at or above the current
generator state bumps the generator past it. -/
def bumpKeyGen (g : Int) : JSVal → Int
  | .num n => if g ≤ n then n + 1 else g
  | _ => g

/-- Host `IDBObjectStore.add`: uses the in-line key when the record has one
(DataError when it has none and the store is not auto-increment; the
generator supplies and injects the key otherwise) and fails with
ConstraintError when a record with the same key already exists.  Returns the
new store state and the request result (the key). -/
def storeAdd (store : ObjectStore) (data : Rec) :
    Except String (ObjectStore × JSVal) :=
  match lookupField data store.keyPath with
  | some k =>
    if store.records.any (fun r => lookupField r store.keyPath == some k) then
      .error "ConstraintError"
    else
      .ok ({ store with
               records := store.records ++ [data],
               keyGen := bumpKeyGen store.keyGen k }, k)
  | none =>
    if store.autoIncrement then
      let k := JSVal.num store.keyGen
      if store.records.any (fun r => lookupField r store.keyPath == some k) then
        .error "ConstraintError"
      else
        .ok ({ store with
                 records := store.records ++ [setField data store.keyPath k],
                 keyGen := store.keyGen + 1 }, k)
    else
      .error "DataError"

/-- Host `IDBObjectStore.get`: the record whose in-line key equals the key,
`undefined` (`none`) when there is none. -/
def storeGet (store : ObjectStore) (key : JSVal) : Option Rec :=
  store.records.find? (fun r => lookupField r store.keyPath == some key)

/-- Host `IDBObjectStore.put`: like `add` but an existing record with the same
key is replaced instead of raising ConstraintError. -/
def storePut (store : ObjectStore) (data : Rec) :
    Except String (ObjectStore × JSVal) :=
  match lookupField data store.keyPath with
  | some k =>
    if store.records.any (fun r => lookupField r store.keyPath == some k) then
      .ok ({ store with
               records := store.records.map
                 (fun r => if lookupField r store.keyPath == some k then data else r),
               keyGen := bumpKeyGen store.keyGen k }, k)
    else
      .ok ({ store with
               records := store.records ++ [data],
               keyGen := bumpKeyGen store.keyGen k }, k)
  | none =>
    if store.autoIncrement then
      let k := JSVal.num store.keyGen
      .ok ({ store with
               records := store.records ++ [setField data store.keyPath k],
               keyGen := store.keyGen + 1 }, k)
    else
      .error "DataError"

/-! ## Model.insert (src/Model.ts) -/

/-- The `...(primary.key && [primary.key]: request.result)` spread of
`Model.insert`/`Model.updateByPk`: when `getPrimaryKey` produced a (truthy)
property name, a single pair mapping it to the request result. -/
def pkAugment (pk : Option String) (key : JSVal) : Rec :=
  match pk with
  | some p => if p = "" then [] else [(p, key)]
  | none => []

/-- Observable behaviour of one `Model.insert` call: the record handed to the
host store's `add` (if any), the store state afterwards, the `add` request's
result key (if it succeeded), and how the promise settles. -/
structure InsertResult where
  submitted : Option Rec
  store : ObjectStore
  result : Option JSVal
  settle : Settle Rec
deriving DecidableEq, Repr

/-- The timestamp spread of `Model.insert` (and of the initial-value inserts of
`Database.insertInitialValues`, which uses the same expression): spread
`createdAt`/`updatedAt` set to the current time into the record when the
table has timestamps enabled. -/
def insertPayload (table : TableType) (data : Rec) (now : Int) : Rec :=
  if table.timestamps then
    mergeRecs data [("createdAt", JSVal.num now), ("updatedAt", JSVal.num now)]
  else data

/-- Embedding of `Model.insert` (src/Model.ts): verify the record against the
table (a throw is caught and rejects), spread in `createdAt`/`updatedAt` when
timestamps are enabled, look up the class's primary-key property (a throw
leaves it `null`), submit via `add`, and on success resolve with the ORIGINAL
input spread-augmented with the request result under the primary-key
property. -/
def Model.insert (table : TableType) (cls : Option ClassInfo)
    (store : ObjectStore) (data : Rec) (now : Int) : InsertResult :=
  match Database.verify data [table] with
  | .error e => ⟨none, store, none, .rejected e⟩
  | .ok verified =>
    let verifiedInsertData := insertPayload table verified now
    let primaryKey := (getPrimaryKey cls).toOption
    match storeAdd store verifiedInsertData with
    | .error e => ⟨some verifiedInsertData, store, none, .rejected e⟩
    | .ok (store2, key) =>
      ⟨some verifiedInsertData, store2, some key,
        .resolved (resolveValue cls (mergeRecs data (pkAugment primaryKey key)))⟩

/-- Embedding of `Model.selectAll` (src/Model.ts): `getAll` over the store,
each record passed through `resolveValue`. -/
def Model.selectAll (cls : Option ClassInfo) (store : ObjectStore) : List Rec :=
  store.records.map (resolveValue cls)

/-! ## ArraySorter (src/array-sorter) -/

/-- Modelled from the spec: ordering of two field values used by the sorter
(`src/array-sorter` is not in the source tree).  Within a type the natural
order is used; the cross-type order is a model choice the spec does not fix. -/
def jsValCompare : JSVal → JSVal → Ordering
  | .num x, .num y => compare x y
  | .str x, .str y => compare x y
  | .bool x, .bool y => compare x y
  | .num _, _ => .lt
  | _, .num _ => .gt
  | .str _, .bool _ => .lt
  | .bool _, .str _ => .gt

/-- Modelled from the spec: comparison of two records on one sort key; spec
section 4.5 has invalid key names sort elements as equal, so a missing field
on either side compares equal. -/
def fieldCompare (k : String) (a b : Rec) : Ordering :=
  match lookupField a k, lookupField b k with
  | some x, some y => jsValCompare x y
  | _, _ => .eq

/-- Modelled from the spec: lexicographic comparison over the sort-key list. -/
def keysCompare (ks : List String) (a b : Rec) : Ordering :=
  match ks with
  | [] => .eq
  | k :: rest =>
    match fieldCompare k a b with
    | .eq => keysCompare rest a b
    | o => o

/-- Modelled from the spec: the non-strict "should come no later than"
relation realised by the sorter; descending flips the comparison. -/
def sorterLe (desc : Bool) (ks : List String) (a b : Rec) : Bool :=
  if desc then keysCompare ks a b ≠ .lt else keysCompare ks a b ≠ .gt

/-- Stable insertion step: `a` is placed before the first element it may
precede, hence after all earlier elements that compare equal to it. -/
def orderedInsertRec (le : Rec → Rec → Bool) (a : Rec) : List Rec → List Rec
  | [] => [a]
  | b :: l => if le a b then a :: b :: l else b :: orderedInsertRec le a l

/-- Stable insertion sort over records. -/
def insertionSortRec (le : Rec → Rec → Bool) : List Rec → List Rec
  | [] => []
  | a :: l => orderedInsertRec le a (insertionSortRec le l)

/-- Modelled from the spec: `ArraySorter.sortBy` (`src/array-sorter` is not in
the source tree).  Spec section 4.5: a pure, stable multi-key sort with a
descending flag, original order preserved among equal elements, invalid key
names sorting as equal. -/
def ArraySorter.sortBy (desc : Bool) (keys : List String) (l : List Rec) :
    List Rec :=
  insertionSortRec (sorterLe desc keys) l

/-! ## Model.select (src/Model.ts) -/

/-- The `where` option: a predicate function receiving the full result set, or
a plain equality-match object. -/
inductive WhereClause where
  | pred (f : List Rec → List Rec)
  | obj (w : Rec)

/-- The `OptionsType` shape taken by `Model.select`.  `none` models an option
that is absent or falsy (the source guards each stage with
`Reflect.has(options, k) && options.k`, so absent and falsy coincide;
the string and numeric truthiness refinements live in `Model.select`). -/
structure SelectOptions where
  whereCl : Option WhereClause := none
  sortBy : Option String := none
  orderByDESC : Option Bool := none
  limit : Option Int := none

/-- The where-object filter of `Model.select`: a record passes when ANY where
key is among its keys with strictly-equal value — OR across fields. -/
def whereObjFilter (w : Rec) (data : List Rec) : List Rec :=
  data.filter (fun item =>
    w.any (fun kv => hasKey item kv.1 && lookupField item kv.1 == some kv.2))

/-- JavaScript `l.slice(0, n)` for integer `n`: a negative bound counts from
the end. -/
def jsSlice0 (l : List Rec) (n : Int) : List Rec :=
  if 0 ≤ n then l.take n.toNat else l.take (l.length - (-n).toNat)

/-- Embedding of `Model.select` (src/Model.ts), as the continuation applied to
the `selectAll` result `data`.  Mirrors the source: `result` starts as the
empty array and is only replaced by filtered data inside the `where` branch;
the sort stage runs when `sortBy` is present and truthy (with the descending
flag `orderByDESC === true`); the limit stage runs when `limit` is present
and truthy (nonzero). -/
def Model.select (opts : SelectOptions) (data : List Rec) : List Rec :=
  let result : List Rec := []
  let result :=
    match opts.whereCl with
    | some (.pred f) => f data
    | some (.obj w) => whereObjFilter w data
    | none => result
  let result :=
    match opts.sortBy with
    | some s =>
      if s = "" then result
      else ArraySorter.sortBy (opts.orderByDESC == some true) [s] result
    | none => result
  match opts.limit with
  | some n => if n = 0 then result else jsSlice0 result n
  | none => result

/-! ## Model.updateByPk (src/Model.ts) -/

/-- Observable behaviour of one `Model.updateByPk` call: the record handed to
the host store's `put` (if any), the store state afterwards, and how the
promise settles. -/
structure UpdateResult where
  stored : Option Rec
  store : ObjectStore
  settle : Settle Rec
deriving DecidableEq, Repr

/-- Embedding of `Model.updateByPk` (src/Model.ts): fetch by key via
`selectByPk`, `Object.assign` the update over the fetched record, set the
`createdAt` field to the current time when timestamps are enabled (this is
what line 172 does), `put`, and resolve with the merged record augmented
with the request result under the class's primary-key property.

When the key does not exist the fetch resolves `undefined`:
`Object.assign(undefined, dataToUpdate)` throws a TypeError inside the
`then` callback, whose rejection is unobserved, so the OUTER promise never
settles and the store is untouched. -/
def Model.updateByPk (table : TableType) (cls : Option ClassInfo)
    (store : ObjectStore) (pKey : JSVal) (dataToUpdate : Rec) (now : Int) :
    UpdateResult :=
  match (storeGet store pKey).map (resolveValue cls) with
  | none => ⟨none, store, .unsettled⟩
  | some fetchedData =>
    let data := mergeRecs fetchedData dataToUpdate
    let primaryKey := (getPrimaryKey cls).toOption
    let data := if table.timestamps then setField data "createdAt" (.num now) else data
    match storePut store data with
    | .error e => ⟨some data, store, .rejected e⟩
    | .ok (store2, key) =>
      ⟨some data, store2,
        .resolved (resolveValue cls (mergeRecs data (pkAugment primaryKey key)))⟩

/-! ## Database.connect (src/Database.ts) -/

/-- Terminal event of one `indexedDB.open` request: exactly one of the open
request's error/success/blocked callbacks fires (spec section 9: a
single-shot future settled by one terminal event). -/
inductive ConnectEvent where
  | errorEvt (e : String)
  | successEvt
  | blockedEvt
deriving DecidableEq, Repr

/-- Embedding of how `Database.connect` (src/Database.ts) settles its promise.
`hasIndexedDB` is whether `Database.getIndexedDB()` found the host factory;
`currentConn` is the instance's `__connection` field at the time the event
fires (`null` until a success assigns it).  The `onblocked` handler first
runs `this.__connection.close()`: on a `null` connection this throws a
TypeError inside the event handler, so the `reject` on the following line
never runs and the promise stays pending. -/
def Database.connectSettle (hasIndexedDB : Bool) (currentConn : Option Unit)
    (ev : ConnectEvent) : Settle Unit :=
  if hasIndexedDB = false then
    .rejected "Unsupported environment"
  else
    match ev with
    | .errorEvt e => .rejected e
    | .successEvt => .resolved ()
    | .blockedEvt =>
      match currentConn with
      | some _ =>
        .rejected "Could not open database, database is blocked. Close all connections and try again."
      | none => .unsettled

/-! ## Database.onUpgradeNeeded (src/Database.ts) -/

/-- Embedding of the removed-table loop of `Database.onUpgradeNeeded`
(src/Database.ts lines 150-158): an index-based `for` loop over the LIVE
`db.objectStoreNames` list; `deleteObjectStore` removes the visited name
from that list while the index still advances. -/
def deleteStoresLoop (stores : List ObjectStore) (tables : List TableType)
    (i : Nat) : List ObjectStore :=
  if h : i < stores.length then
    if (tables.findIdx? (fun t => t.name = (stores.get ⟨i, h⟩).name)).isNone then
      deleteStoresLoop
        (stores.filter (fun s => s.name ≠ (stores.get ⟨i, h⟩).name)) tables (i + 1)
    else
      deleteStoresLoop stores tables (i + 1)
  else
    stores
termination_by stores.length - i
decreasing_by
  · have hle := List.length_filter_le
      (fun s : ObjectStore => s.name ≠ (stores.get ⟨i, h⟩).name) stores
    omega
  · omega

/-- Embedding of `Database.createIndexes` (src/Database.ts): best-effort
creation of every configured index; a `createIndex` failure on an existing
index is swallowed. -/
def Database.createIndexes (store : ObjectStore)
    (indexes : List (String × IndexCfg)) : ObjectStore :=
  indexes.foldl
    (fun st kv =>
      if st.indexNames.contains kv.1 then st
      else { st with indexNames := st.indexNames ++ [kv.1] })
    store

/-- Embedding of `db.createObjectStore(table.name, ...)` as called by
`Database.onUpgradeNeeded` (src/Database.ts lines 168-171): the key path is
`table.primaryKey?.name || 'id'` and the auto-increment flag is
`table.primaryKey?.autoIncrement || true`. -/
def Database.createObjectStore (table : TableType) : ObjectStore :=
  { name := table.name,
    keyPath := jsOrString (table.primaryKey.map (fun pk => pk.name)) "id",
    autoIncrement := jsOrBool (table.primaryKey.map (fun pk => pk.autoIncrement)) true }

/-- Embedding of `Database.insertInitialValues` (src/Database.ts): each initial
record gets timestamps spread in when enabled and is added after `verify`;
a `verify` throw aborts this and the remaining inserts.  An `add` request
failure surfaces only through the host upgrade transaction (out of scope),
so it does not stop the loop here. -/
def Database.insertInitialValues (table : TableType) (now : Int)
    (store : ObjectStore) (items : List Rec) : ObjectStore :=
  match items with
  | [] => store
  | d :: rest =>
    let d := insertPayload table d now
    match Database.verify d [table] with
    | .error _ => store
    | .ok verified =>
      match storeAdd store verified with
      | .error _ => Database.insertInitialValues table now store rest
      | .ok (store2, _) => Database.insertInitialValues table now store2 rest

/-- Embedding of `Database.onUpgradeNeeded` (src/Database.ts): when this is an
upgrade from a nonzero old version, run the removed-table loop; then for
each configured table, create it (with `createObjectStore` parameters,
indexes, and initial values) when it does not exist, and otherwise reuse it,
re-running the best-effort index creation. -/
def Database.onUpgradeNeeded (stores : List ObjectStore)
    (database : ConfigType) (oldVersion : Int) (now : Int) : List ObjectStore :=
  let stores :=
    if oldVersion < database.version ∧ oldVersion ≠ 0 then
      deleteStoresLoop stores database.tables 0
    else stores
  database.tables.foldl
    (fun dbStores table =>
      if dbStores.any (fun s => s.name = table.name) then
        dbStores.map
          (fun s =>
            if s.name = table.name then Database.createIndexes s table.indexes
            else s)
      else
        let store := Database.createIndexes (Database.createObjectStore table)
          table.indexes
        dbStores ++
          [Database.insertInitialValues table now store table.initData])
    stores

/-! ## Spec-side formalisations used to compare claims against the source -/

/-- Formalisation of claim C2's pipeline following the spec's words: the
where/sort/limit stages are applied in order STARTING FROM THE FULL
`selectAll` result, the where stage passing the data through when absent. -/
def selectSpecPipeline (opts : SelectOptions) (data : List Rec) : List Rec :=
  let result :=
    match opts.whereCl with
    | some (.pred f) => f data
    | some (.obj w) => whereObjFilter w data
    | none => data
  let result :=
    match opts.sortBy with
    | some s =>
      if s = "" then result
      else ArraySorter.sortBy (opts.orderByDESC == some true) [s] result
    | none => result
  match opts.limit with
  | some n => if n = 0 then result else jsSlice0 result n
  | none => result

/-- Formalisation of claim C8's check following the spec's words: only the
FIRST table's primary-key invariant is consulted. -/
def verifySpecFirstOnly (data : Rec) (tables : List TableType) :
    Except String Rec :=
  match tables with
  | [] => .error "Tables should not be empty/undefined"
  | t :: _ =>
    if pkViolated data t then
      .error "Either include primary key as well or set autoincrement true."
    else
      .ok data

/-! ## Stage functions of Model.select, named for the stage-order theorem -/

/-- The where stage as `Model.select` actually runs it: filtered data when a
where clause is present, the EMPTY array otherwise (the source initialises
`result` to `[]` and only assigns filtered data inside the where branch). -/
def whereStage (wc : Option WhereClause) (data : List Rec) : List Rec :=
  match wc with
  | some (.pred f) => f data
  | some (.obj w) => whereObjFilter w data
  | none => []

/-- The sort stage of `Model.select`. -/
def sortStage (sortKey : Option String) (desc : Bool) (l : List Rec) :
    List Rec :=
  match sortKey with
  | some s => if s = "" then l else ArraySorter.sortBy desc [s] l
  | none => l

/-- The limit stage of `Model.select`. -/
def limitStage (lim : Option Int) (l : List Rec) : List Rec :=
  match lim with
  | some n => if n = 0 then l else jsSlice0 l n
  | none => l

/-! ## Concrete fixtures used in counterexamples, failing inputs and witnesses -/

/-- Table with timestamps enabled and an auto-increment primary key `id`. -/
def tblTs : TableType :=
  { name := "users", timestamps := true,
    primaryKey := some { name := "id", autoIncrement := true, unique := true } }

/-- Table without timestamps, auto-increment primary key `id`. -/
def tblAutoInc : TableType :=
  { name := "users",
    primaryKey := some { name := "id", autoIncrement := true, unique := true } }

/-- Table whose primary key `code` is configured with autoIncrement false. -/
def tblNoAutoInc : TableType :=
  { name := "books",
    primaryKey := some { name := "code", autoIncrement := false, unique := true } }

/-- Configuration holding only `tblNoAutoInc`. -/
def cfgBooks : ConfigType :=
  { name := "library", version := 1, tables := [tblNoAutoInc] }

/-- Store of `tblTs` holding one record with both timestamp fields at 100. -/
def storeTs : ObjectStore :=
  { name := "users", keyPath := "id", autoIncrement := true, keyGen := 2,
    records := [[("id", JSVal.num 1), ("username", JSVal.str "a"),
                 ("createdAt", JSVal.num 100), ("updatedAt", JSVal.num 100)]] }

/-- Empty auto-increment store for the `users` table. -/
def storeUsersEmpty : ObjectStore :=
  { name := "users", keyPath := "id", autoIncrement := true }

/-- The `users` store after adding `dataUser`: the generator produced key 1
and injected it, and the generator advanced to 2. -/
def storeUsersAfterAdd : ObjectStore :=
  { name := "users", keyPath := "id", autoIncrement := true, keyGen := 2,
    records := [[("username", JSVal.str "john"), ("id", JSVal.num 1)]] }

/-- A record without a primary-key field. -/
def dataUser : Rec := [("username", JSVal.str "john")]

/-- Annotated class for the `users` table whose primary-key property is `id`. -/
def clsUser : ClassInfo := { name := "users", primaryKeyProp := some "id" }

/-- Existing store named `a` (removed from the new configuration). -/
def storeA : ObjectStore := { name := "a", keyPath := "id", autoIncrement := true }

/-- Existing store named `b`, adjacent to `a` in the store-name list (also
removed from the new configuration). -/
def storeB : ObjectStore := { name := "b", keyPath := "id", autoIncrement := true }

/-- The only table of the new configuration. -/
def tblC : TableType :=
  { name := "c", primaryKey := some { name := "id", autoIncrement := true, unique := true } }

/-- New configuration at version 2 containing only table `c`. -/
def cfgOnlyC : ConfigType := { name := "mydb", version := 2, tables := [tblC] }

/-- First table of the C8 counterexample: auto-increment primary key, so its
invariant holds for any record. -/
def tblFirstAuto : TableType :=
  { name := "t1", primaryKey := some { name := "p1", autoIncrement := true, unique := true } }

/-- Second table of the C8 counterexample: non-auto-increment primary key `k2`. -/
def tblSecondNoAuto : TableType :=
  { name := "t2", primaryKey := some { name := "k2", autoIncrement := false, unique := true } }

/-- A record lacking the field `k2`. -/
def recNoK2 : Rec := [("p1", JSVal.num 7)]

/-- Options of the C2 instance: sort descending by `x`, limit 2, no where. -/
def optsSortLimit : SelectOptions :=
  { sortBy := some "x", orderByDESC := some true, limit := some 2 }

/-! ## Record lemmas (object spread / lookup) -/

theorem hasKey_eq_isSome (r : Rec) (k : String) :
    hasKey r k = (lookupField r k).isSome := by
  induction r with
  | nil => simp [hasKey, lookupField]
  | cons kv rest ih =>
    by_cases hk : kv.1 = k
    · simp [hasKey, lookupField, hk]
    · simp only [hasKey, List.map_cons, List.contains_cons, lookupField, hk, if_false]
      rw [show (k == kv.1) = false by simpa using Ne.symm hk]
      simpa [hasKey] using ih

theorem hasKey_of_lookupField {r : Rec} {k : String} {v : JSVal}
    (h : lookupField r k = some v) : hasKey r k = true := by
  rw [hasKey_eq_isSome, h]; rfl

theorem hasKey_false_iff {r : Rec} {k : String} :
    hasKey r k = false ↔ lookupField r k = none := by
  rw [hasKey_eq_isSome]
  cases lookupField r k <;> simp

theorem lookupField_append (a b : Rec) (k : String) :
    lookupField (a ++ b) k =
      match lookupField a k with
      | some v => some v
      | none => lookupField b k := by
  induction a with
  | nil => simp [lookupField]
  | cons kv rest ih =>
    by_cases hk : kv.1 = k
    · simp [lookupField, hk]
    · simpa [lookupField, hk] using ih

theorem lookupField_map_override (a b : Rec) (k : String) :
    lookupField (a.map (fun kv => (kv.1, (lookupField b kv.1).getD kv.2))) k =
      (lookupField a k).map (fun v => (lookupField b k).getD v) := by
  induction a with
  | nil => simp [lookupField]
  | cons kv rest ih =>
    by_cases hk : kv.1 = k
    · subst hk; simp [lookupField]
    · simpa [lookupField, hk] using ih

theorem lookupField_filter_keep (a b : Rec) (k : String) (h : hasKey a k = false) :
    lookupField (b.filter (fun kv => !hasKey a kv.1)) k = lookupField b k := by
  induction b with
  | nil => simp [lookupField]
  | cons kv rest ih =>
    by_cases hk : kv.1 = k
    · subst hk
      simp [List.filter_cons, h, lookupField]
    · by_cases hkeep : hasKey a kv.1
      · simpa [List.filter_cons, hkeep, lookupField, hk] using ih
      · simpa [List.filter_cons, hkeep, lookupField, hk] using ih

theorem lookupField_filter_drop (a b : Rec) (k : String) (h : hasKey a k = true) :
    lookupField (b.filter (fun kv => !hasKey a kv.1)) k = none := by
  induction b with
  | nil => simp [lookupField]
  | cons kv rest ih =>
    by_cases hk : kv.1 = k
    · subst hk
      simpa [List.filter_cons, h, lookupField] using ih
    · by_cases hkeep : hasKey a kv.1
      · simpa [List.filter_cons, hkeep, lookupField, hk] using ih
      · simpa [List.filter_cons, hkeep, lookupField, hk] using ih

/-- Looking up a field of a merged record: the right record wins, the left
record is the fallback — exactly the override semantics of object spread. -/
theorem lookupField_mergeRecs (a b : Rec) (k : String) :
    lookupField (mergeRecs a b) k =
      match lookupField b k with
      | some v => some v
      | none => lookupField a k := by
  unfold mergeRecs
  rw [lookupField_append, lookupField_map_override]
  cases ha : lookupField a k with
  | some v =>
    cases hb : lookupField b k <;> simp [Option.getD]
  | none =>
    have hak : hasKey a k = false := hasKey_false_iff.2 ha
    rw [lookupField_filter_keep a b k hak]
    cases hb : lookupField b k <;> simp

theorem mergeRecs_nil (a : Rec) : mergeRecs a [] = a := by
  unfold mergeRecs
  simp [lookupField]

theorem lookupField_pair_ne (k k' : String) (v : JSVal) (h : k' ≠ k) :
    lookupField [(k', v)] k = none := by
  simp [lookupField, h]

/-! ## Claim C1: OR semantics of the where-object filter -/

theorem whereObjFilter_eq_any_filter (w : Rec) (data : List Rec) :
    whereObjFilter w data =
      data.filter (fun item =>
        w.any (fun kv => lookupField item kv.1 == some kv.2)) := by
  unfold whereObjFilter
  apply List.filter_congr
  intro item _
  have hhead : ∀ (k : String) (v : JSVal),
      (hasKey item k && (lookupField item k == some v))
        = (lookupField item k == some v) := by
    intro k v
    cases hb : (lookupField item k == some v) with
    | false => simp
    | true =>
      have hv : lookupField item k = some v := by simpa using hb
      simp [hasKey_of_lookupField hv]
  simp only [hhead]

/-- C1: for every table state and plain where-object `W`, `Model.select` with
only a `where` option resolves with exactly those records of the full table
(`selectAll`) for which at least one key `k` of `W` satisfies
`record[k] === W[k]` — logical OR across the where fields, not AND. -/
theorem select_where_or_semantics (cls : Option ClassInfo) (store : ObjectStore)
    (w : Rec) :
    Model.select { whereCl := some (WhereClause.obj w) } (Model.selectAll cls store) =
      (Model.selectAll cls store).filter
        (fun item => w.any (fun kv => lookupField item kv.1 == some kv.2)) := by
  have h := whereObjFilter_eq_any_filter w (Model.selectAll cls store)
  simpa [Model.select] using h

/-! ## Claim C2: stage order of Model.select -/

/-- C2 counterexample: `select(sortBy x, orderByDESC, limit 2)` with no
`where` clause does NOT apply the sort/limit stages to the full `selectAll`
result: on a one-record table the code yields `[]` while the claimed
pipeline starting from `selectAll` yields the record. -/
theorem select_no_where_counterexample :
    Model.select optsSortLimit [[("x", JSVal.num 1)]]
      ≠ selectSpecPipeline optsSortLimit [[("x", JSVal.num 1)]] := by
  decide

/-- C2 (amended): `Model.select` applies its stages in the fixed order
filter, then sort, then limit, but the sort and limit stages start from the
WHERE STAGE'S OUTPUT, which is the filtered `selectAll` result when a where
clause is present and the EMPTY array when it is absent; in particular
`select(sortBy, orderByDESC, limit)` without a where clause resolves with
the empty array, and whenever a positive limit `n` is given the result has
at most `n` records. -/
theorem select_stage_order (opts : SelectOptions) (data : List Rec) :
    Model.select opts data =
      limitStage opts.limit
        (sortStage opts.sortBy (opts.orderByDESC == some true)
          (whereStage opts.whereCl data)) ∧
    (opts.whereCl = none → Model.select opts data = []) ∧
    (∀ n : Int, opts.limit = some n → 0 < n →
      (Model.select opts data).length ≤ n.toNat) := by
  have hstage : Model.select opts data =
      limitStage opts.limit
        (sortStage opts.sortBy (opts.orderByDESC == some true)
          (whereStage opts.whereCl data)) := rfl
  refine ⟨hstage, ?_, ?_⟩
  · intro h
    rw [hstage, h]
    cases hs : opts.sortBy <;> cases hl : opts.limit <;>
      simp [whereStage, sortStage, limitStage, ArraySorter.sortBy,
        insertionSortRec, jsSlice0]
  · intro n hn hpos
    rw [hstage, hn]
    have hne : ¬ n = 0 := by omega
    simp only [limitStage, hne, if_false, jsSlice0, hpos.le, if_pos]
    simp [List.length_take]

/-- C2 witness: at the concrete options (sort by `x` descending, limit 2, no
where) and a two-record table, the amended claim's no-where case and limit
bound hold. -/
theorem select_stage_order_witness :
    Model.select optsSortLimit [[("x", JSVal.num 1)], [("x", JSVal.num 2)]] = [] ∧
    (Model.select optsSortLimit
        [[("x", JSVal.num 1)], [("x", JSVal.num 2)]]).length ≤ (2 : Int).toNat := by
  exact ⟨(select_stage_order optsSortLimit _).2.1 rfl,
    (select_stage_order optsSortLimit _).2.2 2 rfl (by decide)⟩

/-! ## Claim C3: updateByPk and the timestamp fields -/

/-- C3: evaluation of `Model.updateByPk` at a table with timestamps enabled and
an existing record whose `createdAt`/`updatedAt` are both 100, updating
field `username` at time 200: the persisted record has `createdAt` OVERWRITTEN
to 200 while `updatedAt` KEEPS its prior value 100 — the opposite of the
claim (line 172 of src/Model.ts assigns `data.createdAt`, not
`data.updatedAt`). -/
theorem updateByPk_overwrites_createdAt :
    (Model.updateByPk tblTs none storeTs (JSVal.num 1)
        [("username", JSVal.str "b")] 200).store.records
      = [[("id", JSVal.num 1), ("username", JSVal.str "b"),
          ("createdAt", JSVal.num 200), ("updatedAt", JSVal.num 100)]] := by
  decide

/-! ## Claim C4: auto-increment flag at store creation -/

/-- C4: evaluation of the migration at a fresh database whose only table is
configured with `primaryKey.autoIncrement === false`: the created store uses
the configured key path `code` but is nevertheless AUTO-INCREMENT, because
`table.primaryKey?.autoIncrement || true` is always `true` (src/Database.ts
line 170). -/
theorem migration_autoIncrement_forced_true :
    (Database.onUpgradeNeeded [] cfgBooks 0 50).map
        (fun s => (s.name, s.keyPath, s.autoIncrement))
      = [("books", "code", true)] := by
  simp [Database.onUpgradeNeeded, Database.createObjectStore,
    Database.createIndexes, Database.insertInitialValues, cfgBooks,
    tblNoAutoInc, jsOrString, jsOrBool]

/-! ## Claim C5: the resolved value of insert and the generated key -/

/-- C5 counterexample: on an empty auto-increment store, with the Model
obtained via a plain table name (no annotated class), auto-increment
produced key 1 (the add request's result), yet the promise resolves with
the bare input record, NOT the input augmented with the generated key. -/
theorem insert_plain_name_no_augmentation :
    (Model.insert tblAutoInc none storeUsersEmpty dataUser 1000).result
        = some (JSVal.num 1) ∧
    (Model.insert tblAutoInc none storeUsersEmpty dataUser 1000).settle
        = Settle.resolved dataUser ∧
    Settle.resolved (mergeRecs dataUser [("id", JSVal.num 1)])
        ≠ (Model.insert tblAutoInc none storeUsersEmpty dataUser 1000).settle := by
  decide

/-- C5 (amended): for a record passing verification whose `add` succeeds with
key `k`, the insert promise resolves with the input record augmented with
`k` under the class's primary-key property WHEN the Model was obtained via
an annotated class declaring one; for a Model obtained via a plain table
name it resolves with the input record alone, without the generated key. -/
theorem insert_resolved_value (table : TableType) (store : ObjectStore)
    (data : Rec) (now : Int)
    (hver : Database.verify data [table] = Except.ok data) :
    (∀ store2 k,
      storeAdd store (insertPayload table data now) = Except.ok (store2, k) →
      (Model.insert table none store data now).settle = Settle.resolved data) ∧
    (∀ c : ClassInfo, ∀ pk : String, c.primaryKeyProp = some pk → pk ≠ "" →
      ∀ store2 k,
        storeAdd store (insertPayload table data now) = Except.ok (store2, k) →
        (Model.insert table (some c) store data now).settle
          = Settle.resolved (mergeRecs data [(pk, k)])) := by
  constructor
  · intro store2 k hadd
    simp [Model.insert, hver, hadd, resolveValue, getPrimaryKey, pkAugment,
      Except.toOption, mergeRecs_nil]
  · intro c pk hpk hne store2 k hadd
    simp [Model.insert, hver, hadd, resolveValue, getPrimaryKey, hpk,
      pkAugment, Except.toOption, hne]

/-- C5 witness: on the empty `users` store (whose add generates key 1), the
plain-table-name Model resolves with the bare input and the class-based
Model resolves with the input augmented with `id = 1`. -/
theorem insert_resolved_value_witness :
    (Model.insert tblAutoInc none storeUsersEmpty dataUser 1000).settle
        = Settle.resolved dataUser ∧
    (Model.insert tblAutoInc (some clsUser) storeUsersEmpty dataUser 1000).settle
        = Settle.resolved (mergeRecs dataUser [("id", JSVal.num 1)]) := by
  constructor
  · exact (insert_resolved_value tblAutoInc storeUsersEmpty dataUser 1000
      rfl).1 storeUsersAfterAdd (JSVal.num 1) rfl
  · exact (insert_resolved_value tblAutoInc storeUsersEmpty dataUser 1000
      rfl).2 clsUser "id" rfl (by decide) storeUsersAfterAdd
      (JSVal.num 1) rfl

/-! ## Claim C6: deletion of removed stores during upgrade -/

/-- C6: evaluation of the migration at an upgrade from version 1 to 2 with two
adjacent existing stores `a`, `b`, both absent from the new configuration
(which holds only `c`): the index-based loop over the LIVE store-name list
deletes `a`, the list shifts, and `b` is skipped and SURVIVES — not every
removed store is deleted. -/
theorem upgrade_skips_adjacent_removed_store :
    (Database.onUpgradeNeeded [storeA, storeB] cfgOnlyC 1 0).map
        (fun s => s.name) = ["b", "c"] := by
  simp [Database.onUpgradeNeeded, deleteStoresLoop, Database.createObjectStore,
    Database.createIndexes, Database.insertInitialValues, cfgOnlyC, tblC,
    storeA, storeB, jsOrString, jsOrBool]

/-! ## Claim C7: rejection cases of connect -/

/-- C7: evaluation of the connect settlement at the three failure cases of a
fresh `Database` instance (whose `__connection` is still null): a missing
host factory and an open error both reject, but a BLOCKED open leaves the
promise unsettled — the `onblocked` handler runs `this.__connection.close()`
on the null connection, throwing before the `reject` statement. -/
theorem connect_blocked_never_settles :
    Database.connectSettle false none ConnectEvent.successEvt
        = Settle.rejected "Unsupported environment" ∧
    Database.connectSettle true none (ConnectEvent.errorEvt "OpenError")
        = Settle.rejected "OpenError" ∧
    Database.connectSettle true none ConnectEvent.blockedEvt
        = Settle.unsettled ∧
    (Database.connectSettle true none ConnectEvent.blockedEvt).isRejected
        = false := by
  decide

/-! ## Claim C8: which tables verify checks -/

/-- C8 counterexample: a record satisfying the FIRST table's invariant (its
primary key is auto-increment) is nevertheless rejected by
`Database.verify`, because the second table in the list has a
non-auto-increment primary key the record lacks — `verify` checks every
table, not only the first. -/
theorem verify_checks_all_tables_counterexample :
    verifySpecFirstOnly recNoK2 [tblFirstAuto, tblSecondNoAuto]
        = Except.ok recNoK2 ∧
    Database.verify recNoK2 [tblFirstAuto, tblSecondNoAuto]
        ≠ Except.ok recNoK2 := by
  constructor
  · rfl
  · intro h
    rw [show Database.verify recNoK2 [tblFirstAuto, tblSecondNoAuto]
        = Except.error "Either include primary key as well or set autoincrement true."
      from rfl] at h
    exact Except.noConfusion h

/-- C8 (amended): `Database.verify` returns the record unchanged exactly when
the table list is non-empty and EVERY table in the list satisfies the
primary-key presence invariant for the record; it fails when the list is
empty or ANY table (not just the first) has a non-auto-increment primary
key the record lacks. -/
theorem verify_ok_iff (data : Rec) (tables : List TableType) :
    Database.verify data tables = Except.ok data ↔
      (tables ≠ [] ∧ ∀ t ∈ tables, pkViolated data t = false) := by
  cases tables with
  | nil => simp [Database.verify]
  | cons t rest =>
    by_cases h : (t :: rest).any (fun table => pkViolated data table)
    · simp only [Database.verify, h, if_true]
      constructor
      · intro hc; exact Except.noConfusion hc
      · rintro ⟨-, hall⟩
        obtain ⟨x, hx, hpx⟩ := List.any_eq_true.mp h
        rw [hall x hx] at hpx
        simp at hpx
    · simp only [Database.verify, h, if_false]
      constructor
      · intro _
        refine ⟨by simp, ?_⟩
        intro x hx
        by_contra hc
        have hx2 : pkViolated data x = true := by
          revert hc; cases pkViolated data x <;> simp
        exact h (List.any_eq_true.mpr ⟨x, hx, hx2⟩)
      · intro _
        rfl

/-- C8 witness: at the singleton list holding the auto-increment table,
`verify` returns the record unchanged. -/
theorem verify_ok_iff_witness :
    Database.verify recNoK2 [tblFirstAuto] = Except.ok recNoK2 :=
  (verify_ok_iff recNoK2 [tblFirstAuto]).mpr (by decide)

/-! ## Claim C9: updateByPk at a missing key -/

/-- C9 counterexample: on an empty store, `updateByPk` neither resolves nor
rejects — the fetch resolves undefined and `Object.assign(undefined, u)`
throws inside the `then` callback, so the promise never settles; in
particular it does not settle with a failure and the merge does not yield
the update object. -/
theorem updateByPk_missing_key_counterexample :
    (Model.updateByPk tblTs none storeUsersEmpty (JSVal.num 99)
        [("username", JSVal.str "x")] 0).settle.isSettled = false := by
  decide

/-- C9 (amended): for every key at which no record exists, `updateByPk` never
settles its promise (the merge over the undefined base throws inside the
`then` callback) and the store is left untouched. -/
theorem updateByPk_missing_key_unsettled (table : TableType)
    (cls : Option ClassInfo) (store : ObjectStore) (pKey : JSVal)
    (dataToUpdate : Rec) (now : Int)
    (h : storeGet store pKey = none) :
    (Model.updateByPk table cls store pKey dataToUpdate now).settle
        = Settle.unsettled ∧
    (Model.updateByPk table cls store pKey dataToUpdate now).store = store := by
  simp [Model.updateByPk, h]

/-- C9 witness: at key 5 of the empty `users` store the promise never settles
and the store is unchanged. -/
theorem updateByPk_missing_key_unsettled_witness :
    (Model.updateByPk tblTs none storeUsersEmpty (JSVal.num 5) [] 0).settle
        = Settle.unsettled ∧
    (Model.updateByPk tblTs none storeUsersEmpty (JSVal.num 5) [] 0).store
        = storeUsersEmpty :=
  updateByPk_missing_key_unsettled tblTs none storeUsersEmpty (JSVal.num 5) [] 0 rfl

/-! ## Claim C10: timestamps are submitted but not resolved -/

theorem resolveValue_eq (cls : Option ClassInfo) (v : Rec) :
    resolveValue cls v = v := by
  cases cls <;> rfl

theorem insert_submitted (table : TableType) (cls : Option ClassInfo)
    (store : ObjectStore) (data : Rec) (now : Int)
    (hver : Database.verify data [table] = Except.ok data) :
    (Model.insert table cls store data now).submitted
      = some (insertPayload table data now) := by
  unfold Model.insert
  rw [hver]
  cases hadd : storeAdd store (insertPayload table data now) <;> simp [hadd]

theorem insert_settle_cases (table : TableType) (cls : Option ClassInfo)
    (store : ObjectStore) (data : Rec) (now : Int)
    (hver : Database.verify data [table] = Except.ok data) :
    (Model.insert table cls store data now).settle.isRejected = true ∨
    ∃ k, (Model.insert table cls store data now).settle
        = Settle.resolved
            (resolveValue cls
              (mergeRecs data (pkAugment (getPrimaryKey cls).toOption k))) := by
  unfold Model.insert
  rw [hver]
  cases hadd : storeAdd store (insertPayload table data now) with
  | error e => left; simp [hadd, Settle.isRejected]
  | ok p =>
    right
    refine ⟨p.2, ?_⟩
    simp [hadd]

/-- C10: for a table with timestamps enabled and a record accepted by the
verification (whose class primary-key property, when any, is not a
timestamp field), the record SUBMITTED to the host `add` carries the
injected `createdAt`/`updatedAt` set to the current time, while the value
the promise resolves with is built from the original input record: its
timestamp fields are exactly those of the input, so the injected fields
never appear in it. -/
theorem insert_timestamp_injection (table : TableType) (cls : Option ClassInfo)
    (store : ObjectStore) (data : Rec) (now : Int)
    (ht : table.timestamps = true)
    (hver : Database.verify data [table] = Except.ok data)
    (hpk : ∀ pk : String, getPrimaryKey cls = Except.ok pk →
      pk ≠ "createdAt" ∧ pk ≠ "updatedAt") :
    (∀ s, (Model.insert table cls store data now).submitted = some s →
      lookupField s "createdAt" = some (JSVal.num now) ∧
      lookupField s "updatedAt" = some (JSVal.num now)) ∧
    (∀ v, (Model.insert table cls store data now).settle = Settle.resolved v →
      lookupField v "createdAt" = lookupField data "createdAt" ∧
      lookupField v "updatedAt" = lookupField data "updatedAt") := by
  have hpayload : insertPayload table data now
      = mergeRecs data [("createdAt", JSVal.num now), ("updatedAt", JSVal.num now)] := by
    simp [insertPayload, ht]
  have haug : ∀ k : JSVal,
      lookupField (pkAugment (getPrimaryKey cls).toOption k) "createdAt" = none ∧
      lookupField (pkAugment (getPrimaryKey cls).toOption k) "updatedAt" = none := by
    intro k
    cases hgp : getPrimaryKey cls with
    | error e => simp [pkAugment, Except.toOption, lookupField]
    | ok p =>
      obtain ⟨h1, h2⟩ := hpk p hgp
      by_cases hp : p = ""
      · simp [pkAugment, Except.toOption, hp, lookupField]
      · constructor <;> simp [pkAugment, Except.toOption, hp, lookupField, h1, h2]
  constructor
  · intro s hs
    rw [insert_submitted table cls store data now hver] at hs
    have hsp : s = insertPayload table data now := by
      injection hs with hs2; exact hs2.symm
    subst hsp
    rw [hpayload]
    constructor <;> rw [lookupField_mergeRecs] <;> simp [lookupField]
  · intro v hv
    rcases insert_settle_cases table cls store data now hver with hrej | ⟨k, hk⟩
    · rw [hv] at hrej
      simp [Settle.isRejected] at hrej
    · rw [hv] at hk
      have hveq : v = resolveValue cls
          (mergeRecs data (pkAugment (getPrimaryKey cls).toOption k)) := by
        injection hk
      rw [hveq, resolveValue_eq]
      obtain ⟨ha1, ha2⟩ := haug k
      constructor <;> rw [lookupField_mergeRecs] <;> simp [ha1, ha2]

/-- C10 witness: at the timestamped `users` table with input lacking timestamp
fields, the submitted record carries `createdAt = 1000` while the input
record (from which the resolved value is built) has no `createdAt`. -/
theorem insert_timestamp_injection_witness :
    lookupField [("username", JSVal.str "john"), ("createdAt", JSVal.num 1000),
        ("updatedAt", JSVal.num 1000)] "createdAt" = some (JSVal.num 1000) ∧
    lookupField dataUser "createdAt" = none := by
  have h := insert_timestamp_injection tblTs none storeUsersEmpty dataUser 1000
    rfl rfl (fun pk hpk => by simp [getPrimaryKey] at hpk)
  refine ⟨(h.1 [("username", JSVal.str "john"), ("createdAt", JSVal.num 1000),
      ("updatedAt", JSVal.num 1000)] (by decide)).1, by decide⟩
